import Mathlib

/-!
Shallow embedding of the KoStore plugin-manager core (repository search and
classification, version parsing and comparison, the three-tier update
resolver, archive acquisition and the install workers), together with
theorems settling the specification claims about it.

Python machine-level conventions used throughout the embedding:
* Python strings are Lean `String`s; `str.lower` / `endswith` / `lstrip` /
  slicing are modelled with the corresponding `String`/`List Char`
  operations.
* ISO-8601 timestamp strings are modelled by the instants they denote,
  as `Int` seconds; `timedelta(days := n)` is `n * 86400`.
* Remote calls and filesystem reads are modelled as explicit environment
  fields: `none` models the exception / not-found path of the
  corresponding `try` block in the source.
* A Python exception that escapes a function is an `Except.error` carrying
  the exception text.
-/

namespace KoStore

/-! ## Python string and list primitives -/

/-- Does `hay` start with `needle` (character lists)? -/
def startsWithCL : List Char → List Char → Bool
  | _, [] => true
  | [], _ :: _ => false
  | a :: as, b :: bs => a = b && startsWithCL as bs

/-- Python substring test `needle in hay` on character lists. -/
def containsSeg : List Char → List Char → Bool
  | [], needle => startsWithCL [] needle
  | hay@(_ :: t), needle => startsWithCL hay needle || containsSeg t needle

/-- Python substring test `needle in hay` on strings. -/
def containsSub (hay needle : String) : Bool :=
  containsSeg hay.toList needle.toList

/-- Python `s.lstrip('v')`: remove every leading `v`. -/
def pyLstripV (s : String) : String :=
  String.mk (s.toList.dropWhile (fun c => c = 'v'))

/-- Splitter behind Python `s.split(sep)` for a one-character separator:
every occurrence splits, empty pieces are kept, `"".split(sep) = [""]`. -/
def splitCharAux (sep : Char) : List Char → List Char → List String
  | [], acc => [String.mk acc.reverse]
  | c :: cs, acc =>
    if c = sep then String.mk acc.reverse :: splitCharAux sep cs []
    else splitCharAux sep cs (c :: acc)

/-- Python `s.split("/")`. -/
def pySplitSlash (s : String) : List String :=
  splitCharAux '/' s.toList []

/-- Python `s.lower()` (ASCII case mapping). -/
def pyLower (s : String) : String :=
  String.mk (s.toList.map Char.toLower)

/-- Python `s.endswith(suf)`. -/
def pyEndsWith (s suf : String) : Bool :=
  startsWithCL s.toList.reverse suf.toList.reverse

/-- Accumulating scanner behind `re.findall(r"\d+", s)`: maximal runs of
decimal digits, each converted to a number. -/
def digitRunsAux : List Char → Option Nat → List Nat
  | [], none => []
  | [], some n => [n]
  | c :: cs, acc =>
    if c.isDigit then
      digitRunsAux cs (some ((acc.getD 0) * 10 + (c.toNat - 48)))
    else
      match acc with
      | none => digitRunsAux cs none
      | some n => n :: digitRunsAux cs none

/-- All maximal decimal-digit runs of a character list, as numbers
(`re.findall(r"\d+", s)` followed by `int`). -/
def digitRuns (s : List Char) : List Nat :=
  digitRunsAux s none

/-- Python tuple comparison `a > b` on integer tuples (lexicographic,
a longer tuple beats its proper prefix). -/
def pyGtList : List Nat → List Nat → Bool
  | [], [] => false
  | [], _ :: _ => false
  | _ :: _, [] => true
  | a :: as, b :: bs =>
    if b < a then true
    else if a < b then false
    else pyGtList as bs

/-! ## utils/versioning.py -/

/-- Loop `while len(version_tuple) < 3: version_tuple += (0,)`, written as
the case split the loop performs (at most three zeros are appended). -/
def padTo3 : List Nat → List Nat
  | [] => [0, 0, 0]
  | [a] => [a, 0, 0]
  | [a, b] => [a, b, 0]
  | t => t

/-- Embedding of `parse_version` (utils/versioning.py): strip leading `v`s,
collect the numeric segments, pad to three components, keep the first
three.  The tuple is modelled as a `List Nat`. -/
def parse_version (version_str : String) : List Nat :=
  if version_str = "" then [0, 0, 0]
  else
    let stripped := pyLstripV version_str
    let numbers := digitRuns stripped.toList
    (padTo3 numbers).take 3

/-- Embedding of `is_newer_version` (utils/versioning.py):
`parse_version(new) > parse_version(current)` under Python tuple order. -/
def is_newer_version (current_version new_version : String) : Bool :=
  pyGtList (parse_version new_version) (parse_version current_version)

/-! ## Basic facts about the primitives -/

theorem padTo3_eq (t : List Nat) :
    padTo3 t = t ++ List.replicate (3 - t.length) 0 := by
  match t with
  | [] => rfl
  | [a] => rfl
  | [a, b] => rfl
  | a :: b :: c :: rest =>
    show a :: b :: c :: rest = _
    simp [padTo3, List.length_cons]

theorem parse_version_length (s : String) : (parse_version s).length = 3 := by
  unfold parse_version
  by_cases h : s = ""
  · simp [h]
  · simp only [h, if_false]
    rw [padTo3_eq]
    simp only [List.length_take, List.length_append, List.length_replicate]
    omega

theorem mem_of_mem_dropWhileP {α : Type} (p : α → Bool) :
    ∀ l : List α, ∀ a, a ∈ l.dropWhile p → a ∈ l := by
  intro l
  induction l with
  | nil => intro a h; simp at h
  | cons x xs ih =>
    intro a h
    rw [List.dropWhile_cons] at h
    by_cases hp : p x
    · simp only [hp, if_true] at h
      exact List.mem_cons_of_mem x (ih a h)
    · simp only [hp, if_false] at h
      exact h

/-- A character list with no decimal digit yields no digit runs. -/
theorem digitRunsAux_nil_of_no_digit (l : List Char) (h : l.all (fun c => !c.isDigit) = true) :
    digitRunsAux l none = [] := by
  induction l with
  | nil => rfl
  | cons c cs ih =>
    simp only [List.all_cons, Bool.and_eq_true, Bool.not_eq_true'] at h
    unfold digitRunsAux
    simp only [h.1, if_false]
    exact ih (by simpa using h.2)

theorem pyGtList_iff_lex :
    ∀ x y : List Nat, pyGtList x y = true ↔ List.Lex (· < ·) y x := by
  intro x
  induction x with
  | nil =>
    intro y
    cases y with
    | nil => simp [pyGtList]
    | cons b bs => simp [pyGtList]
  | cons a as ih =>
    intro y
    cases y with
    | nil =>
      simp only [pyGtList]
      exact ⟨fun _ => List.Lex.nil, fun _ => by trivial⟩
    | cons b bs =>
      simp only [pyGtList]
      by_cases hba : b < a
      · simp only [hba, if_true]
        exact ⟨fun _ => List.Lex.rel hba, fun _ => by trivial⟩
      · simp only [hba, if_false]
        by_cases hab : a < b
        · simp only [hab, if_true]
          constructor
          · intro h; cases h
          · intro h
            cases h with
            | rel h => exact absurd h hba
            | cons h => exact absurd hab (lt_irrefl a)
        · simp only [hab, if_false]
          have heq : b = a := by omega
          subst heq
          rw [ih bs]
          constructor
          · intro h; exact List.Lex.cons h
          · intro h
            cases h with
            | rel h => exact absurd h (lt_irrefl b)
            | cons h => exact h

theorem pyGtList_irrefl : ∀ x : List Nat, pyGtList x x = false := by
  intro x
  induction x with
  | nil => rfl
  | cons a as ih => simp [pyGtList, ih]

theorem pyGtList_asymm :
    ∀ x y : List Nat, pyGtList x y = true → pyGtList y x = false := by
  intro x
  induction x with
  | nil =>
    intro y h
    cases y with
    | nil => simp [pyGtList] at h
    | cons b bs => simp [pyGtList] at h
  | cons a as ih =>
    intro y h
    cases y with
    | nil => rfl
    | cons b bs =>
      simp only [pyGtList] at h ⊢
      by_cases hba : b < a
      · have h1 : ¬ a < b := by omega
        simp [hba, h1]
      · by_cases hab : a < b
        · simp [hba, hab] at h
        · have heq : b = a := by omega
          subst heq
          simp only [lt_irrefl, if_false] at h ⊢
          exact ih bs h

theorem pyGtList_trans :
    ∀ x y z : List Nat, pyGtList x y = true → pyGtList y z = true →
      pyGtList x z = true := by
  intro x
  induction x with
  | nil =>
    intro y z hxy hyz
    cases y with
    | nil => exact hyz
    | cons b bs => simp [pyGtList] at hxy
  | cons a as ih =>
    intro y z hxy hyz
    cases y with
    | nil => cases z with
      | nil => simp [pyGtList] at hyz
      | cons c cs => simp [pyGtList] at hyz
    | cons b bs =>
      cases z with
      | nil => rfl
      | cons c cs =>
        simp only [pyGtList] at hxy hyz ⊢
        by_cases hba : b < a
        · by_cases hcb : c < b
          · have : c < a := by omega
            simp [this]
          · by_cases hbc : b < c
            · simp [hcb, hbc] at hyz
            · have heq : c = b := by omega
              subst heq
              simp [hba]
        · by_cases hab : a < b
          · simp [hba, hab] at hxy
          · have heq : b = a := by omega
            subst heq
            simp only [lt_irrefl, if_false] at hxy
            by_cases hcb : c < b
            · simp [hcb]
            · by_cases hbc : b < c
              · simp [hcb, hbc] at hyz
              · have heq2 : c = b := by omega
                subst heq2
                simp only [lt_irrefl, if_false] at hyz ⊢
                exact ih bs cs hxy hyz

theorem pyGtList_total_of_length :
    ∀ x y : List Nat, x.length = y.length →
      pyGtList x y = true ∨ pyGtList y x = true ∨ x = y := by
  intro x
  induction x with
  | nil =>
    intro y h
    cases y with
    | nil => exact Or.inr (Or.inr rfl)
    | cons b bs => simp at h
  | cons a as ih =>
    intro y h
    cases y with
    | nil => simp at h
    | cons b bs =>
      simp only [List.length_cons, Nat.add_right_cancel_iff] at h
      by_cases hba : b < a
      · left; simp [pyGtList, hba]
      · by_cases hab : a < b
        · right; left; simp [pyGtList, hab]
        · have heq : b = a := by omega
          subst heq
          rcases ih bs h with h1 | h1 | h1
          · left; simp [pyGtList, h1]
          · right; left; simp [pyGtList, h1]
          · right; right; rw [h1]

/-- Claim C4: version comparison is the strict total order induced by
lexicographic comparison of the parsed three-component tuples:
`is_newer_version a b` holds iff `parse_version b` is lexicographically
greater than `parse_version a`; `v1.10.0` is newer than `v1.2.0`; `1.2`
and `1.2.0` are newer in neither direction; the order is irreflexive,
asymmetric, transitive, and total up to equality of the parsed tuples. -/
theorem is_newer_version_lex_order :
    (∀ a b, is_newer_version a b = true ↔
        List.Lex (· < ·) (parse_version a) (parse_version b))
    ∧ is_newer_version "v1.2.0" "v1.10.0" = true
    ∧ is_newer_version "1.2" "1.2.0" = false
    ∧ is_newer_version "1.2.0" "1.2" = false
    ∧ (∀ a, is_newer_version a a = false)
    ∧ (∀ a b, is_newer_version a b = true → is_newer_version b a = false)
    ∧ (∀ a b c, is_newer_version a b = true → is_newer_version b c = true →
        is_newer_version a c = true)
    ∧ (∀ a b, is_newer_version a b = true ∨ is_newer_version b a = true ∨
        parse_version a = parse_version b) := by
  refine ⟨?_, by decide, by decide, by decide, ?_, ?_, ?_, ?_⟩
  · intro a b
    exact pyGtList_iff_lex (parse_version b) (parse_version a)
  · intro a
    exact pyGtList_irrefl (parse_version a)
  · intro a b h
    exact pyGtList_asymm (parse_version b) (parse_version a) h
  · intro a b c hab hbc
    exact pyGtList_trans (parse_version c) (parse_version b) (parse_version a) hbc hab
  · intro a b
    rcases pyGtList_total_of_length (parse_version b) (parse_version a)
        (by rw [parse_version_length, parse_version_length]) with h | h | h
    · exact Or.inl h
    · exact Or.inr (Or.inl h)
    · exact Or.inr (Or.inr h.symm)

/-- Closed witness for claim C4, instantiating the quantified parts at
concrete version strings. -/
theorem is_newer_version_lex_order_witness :
    (is_newer_version "v1.2.0" "v1.10.0" = true ↔
        List.Lex (· < ·) (parse_version "v1.2.0") (parse_version "v1.10.0"))
    ∧ is_newer_version "2.0" "2.0" = false
    ∧ is_newer_version "2.0" "1.9" = false
    ∧ (is_newer_version "1.0" "3.0" = true ∨ is_newer_version "3.0" "1.0" = true ∨
        parse_version "1.0" = parse_version "3.0") :=
  ⟨is_newer_version_lex_order.1 "v1.2.0" "v1.10.0",
   is_newer_version_lex_order.2.2.2.2.1 "2.0",
   is_newer_version_lex_order.2.2.2.2.2.1 "1.9" "2.0" (by decide),
   is_newer_version_lex_order.2.2.2.2.2.2.2 "1.0" "3.0"⟩

/-- Claim C5: version parsing is total: every input yields exactly three
non-negative components (the codomain is lists over `Nat`); the empty
string and any digit-free string yield `[0, 0, 0]`; fewer than three
numeric segments are padded with trailing zeros. -/
theorem parse_version_total :
    (∀ s, (parse_version s).length = 3)
    ∧ parse_version "" = [0, 0, 0]
    ∧ (∀ s, s.toList.all (fun c => !c.isDigit) = true → parse_version s = [0, 0, 0])
    ∧ (∀ s, s ≠ "" → parse_version s =
        (digitRuns (pyLstripV s).toList).take 3 ++
          List.replicate (3 - (digitRuns (pyLstripV s).toList).length) 0)
    ∧ parse_version "1.2" = [1, 2, 0]
    ∧ parse_version "7" = [7, 0, 0] := by
  refine ⟨parse_version_length, rfl, ?_, ?_, by decide, by decide⟩
  · intro s h
    by_cases hs : s = ""
    · simp [hs, parse_version]
    · unfold parse_version
      simp only [hs, if_false]
      have hnd : (pyLstripV s).toList.all (fun c => !c.isDigit) = true := by
        unfold pyLstripV
        apply List.all_eq_true.mpr
        intro c hc
        exact List.all_eq_true.mp h c
          (mem_of_mem_dropWhileP _ s.toList c (by simpa using hc))
      rw [digitRuns, digitRunsAux_nil_of_no_digit _ hnd]
      rfl
  · intro s hs
    unfold parse_version
    simp only [hs, if_false]
    rw [padTo3_eq]
    by_cases h : (digitRuns (pyLstripV s).toList).length < 3
    · rw [List.take_of_length_le
        (by simp only [List.length_append, List.length_replicate]; omega)]
      rw [List.take_of_length_le (by omega)]
    · have h0 : 3 - (digitRuns (pyLstripV s).toList).length = 0 := by omega
      rw [h0]
      simp

/-- Closed witness for claim C5, instantiating the quantified parts at
concrete strings. -/
theorem parse_version_total_witness :
    (parse_version "garbage" = [0, 0, 0])
    ∧ (parse_version "v1.10.0" =
        (digitRuns (pyLstripV "v1.10.0").toList).take 3 ++
          List.replicate (3 - (digitRuns (pyLstripV "v1.10.0").toList).length) 0) :=
  ⟨parse_version_total.2.2.1 "garbage" (by decide),
   parse_version_total.2.2.2.1 "v1.10.0" (by decide)⟩

/-! ## services/update_service.py — data model

Remote data consumed by the update resolver.  Timestamp strings are
modelled by the instants they denote (`Int` seconds); a day is 86400. -/

/-- One element of a release's `assets` array. -/
structure ReleaseAsset where
  name : String
  browser_download_url : String
deriving DecidableEq

/-- The dictionary built by `GitHubAPI.get_latest_release`: every key is
always present (defaulted to an empty value by the source). -/
structure Release where
  tag_name : String
  published_at : Int
  body : String
  html_url : String
  assets : List ReleaseAsset
deriving DecidableEq

/-- The dictionary built by `GitHubAPI.get_repository_commits` when at
least one commit is returned. -/
structure CommitsInfo where
  latest_commit : String
  latest_commit_date : Int
deriving DecidableEq

/-- One installed plugin's info dictionary; `none` models an absent key
(the source reads both keys through `dict.get` with a default). -/
structure InstalledInfo where
  version : Option String
  path : Option String
deriving DecidableEq

/-- One catalog entry as consumed by the resolver; `updated_at = none`
models an absent or empty `updated_at` string. -/
structure AvailablePlugin where
  name : String
  owner_login : String
  updated_at : Option Int
deriving DecidableEq

/-- The external world seen by `UpdateService._check_plugin_update`:
remote fetches, the local filesystem, the clock, and flags modelling an
exception raised inside the strategy-2 / strategy-3 `try` blocks (the
source swallows those and falls through). -/
structure UpdateEnv where
  latest_release : String → String → Option Release
  meta_mtime : String → Option Int
  commits : String → String → Option CommitsInfo
  tier2_exception : Bool
  tier3_exception : Bool
  now : Int

/-- The dictionary returned by `_check_plugin_update`; `none` in an
optional field models an absent key. -/
structure UpdateInfo where
  has_update : Bool
  latest_version : Option String := none
  update_type : Option String := none
  download_url : Option (Option String) := none
  release_notes : Option String := none
  published_at : Option Int := none
deriving DecidableEq

/-- First asset whose name ends in `.zip` (the loop shared by
`_get_release_download_url` and `download_repository_zip`). -/
def findZipAsset : List ReleaseAsset → Option String
  | [] => none
  | a :: rest =>
    if pyEndsWith a.name ".zip" then some a.browser_download_url
    else findZipAsset rest

/-- Embedding of `UpdateService._get_release_download_url`.  With no
`.zip` asset the source computes `release["html_url"].split("/")[-2]`,
which raises `IndexError` when the split yields fewer than two parts
(for example on an empty `html_url`); the error branch models that
exception. -/
def get_release_download_url (release : Release) : Except String (Option String) :=
  match findZipAsset release.assets with
  | some url => Except.ok (some url)
  | none =>
    match (pySplitSlash release.html_url).reverse with
    | repo :: owner :: _ =>
      if owner ≠ "" && repo ≠ "" then
        Except.ok (some ("https://github.com/" ++ owner ++ "/" ++ repo ++
          "/archive/" ++ release.tag_name ++ ".zip"))
      else Except.ok none
    | _ => Except.error "IndexError: list index out of range"

/-- Embedding of strategy 3 of `_check_plugin_update` (repository-recency
fallback, source lines 141-158): a synthetic update iff the installed
version is literally Unknown and the repository moved within 7 days. -/
def strategy3 (installed_info : InstalledInfo) (available_plugin : AvailablePlugin)
    (env : UpdateEnv) : UpdateInfo :=
  if env.tier3_exception then { has_update := false }
  else
    match available_plugin.updated_at with
    | none => { has_update := false }
    | some repo_updated_date =>
      let installed_version := installed_info.version.getD "Unknown"
      if installed_version = "Unknown" &&
          repo_updated_date > env.now - 7 * 86400 then
        { has_update := true
          latest_version := some "Recent Update"
          update_type := some "repository"
          published_at := some repo_updated_date }
      else { has_update := false }

/-- Embedding of strategy 2 of `_check_plugin_update` (commit-timestamp
heuristic, source lines 110-139); every non-deciding path of the source
block falls through into strategy 3. -/
def strategy2 (installed_info : InstalledInfo) (available_plugin : AvailablePlugin)
    (env : UpdateEnv) : UpdateInfo :=
  let owner := available_plugin.owner_login
  let repo := available_plugin.name
  let installed_meta_path := installed_info.path.getD ""
  if installed_meta_path ≠ "" && !env.tier2_exception then
    match env.meta_mtime installed_meta_path with
    | none => strategy3 installed_info available_plugin env
    | some installed_time =>
      match env.commits owner repo with
      | none => strategy3 installed_info available_plugin env
      | some commits =>
        if commits.latest_commit_date > installed_time + 86400 then
          { has_update := true
            latest_version := some (commits.latest_commit.take 8)
            update_type := some "commit"
            published_at := some commits.latest_commit_date }
        else strategy3 installed_info available_plugin env
  else strategy3 installed_info available_plugin env

/-- Embedding of `UpdateService._check_plugin_update`: strategy 1 (latest
release tag) and the fall-through into strategies 2 and 3.  The
`Except.error` path is the `IndexError` escaping from
`_get_release_download_url`, which nothing in the source catches. -/
def check_plugin_update (installed_info : InstalledInfo)
    (available_plugin : AvailablePlugin) (env : UpdateEnv) :
    Except String UpdateInfo :=
  let owner := available_plugin.owner_login
  let repo := available_plugin.name
  match env.latest_release owner repo with
  | some latest_release =>
    if latest_release.tag_name ≠ "" then
      let installed_version := installed_info.version.getD ""
      let installed_clean := pyLstripV installed_version
      let latest_clean := pyLstripV latest_release.tag_name
      if is_newer_version installed_clean latest_clean then
        match get_release_download_url latest_release with
        | Except.error e => Except.error e
        | Except.ok url =>
          Except.ok
            { has_update := true
              latest_version := some latest_release.tag_name
              update_type := some "release"
              download_url := some url
              release_notes := some latest_release.body
              published_at := some latest_release.published_at }
      else Except.ok (strategy2 installed_info available_plugin env)
    else Except.ok (strategy2 installed_info available_plugin env)
  | none => Except.ok (strategy2 installed_info available_plugin env)

/-- Embedding of `UpdateService._find_available_plugin`: exact name, then
with the `.koplugin` suffix removed, then case-insensitively. -/
def find_available_plugin (plugin_name : String)
    (available_plugins : List AvailablePlugin) : Option AvailablePlugin :=
  match available_plugins.find? (fun p => p.name == plugin_name) with
  | some p => some p
  | none =>
    let clean_name := plugin_name.replace ".koplugin" ""
    match available_plugins.find? (fun p => p.name == clean_name) with
    | some p => some p
    | none =>
      available_plugins.find? (fun p => p.name.toLower == clean_name.toLower)

/-- One entry of the dictionary returned by `check_for_updates`. -/
structure UpdateEntry where
  installed_version : String
  latest_version : Option String
  update_type : Option String
  download_url : Option String
  release_notes : String
  published_at : Option Int
deriving DecidableEq

/-- The entry built by `check_for_updates` from a positive
`_check_plugin_update` result. -/
def mkUpdateEntry (installed_info : InstalledInfo) (u : UpdateInfo) : UpdateEntry :=
  { installed_version := installed_info.version.getD "Unknown"
    latest_version := u.latest_version
    update_type := u.update_type
    download_url := u.download_url.getD none
    release_notes := u.release_notes.getD ""
    published_at := u.published_at }

/-- Embedding of the public `UpdateService.check_for_updates`: iterate the
installed plugins, match each against the catalog, collect positive
results.  An exception from `_check_plugin_update` propagates (the loop
has no handler). -/
def check_for_updates (installed_plugins : List (String × InstalledInfo))
    (available_plugins : List AvailablePlugin) (env : UpdateEnv) :
    Except String (List (String × UpdateEntry)) :=
  match installed_plugins with
  | [] => Except.ok []
  | (plugin_name, installed_info) :: rest =>
    match find_available_plugin plugin_name available_plugins with
    | none => check_for_updates rest available_plugins env
    | some available_plugin =>
      match check_plugin_update installed_info available_plugin env with
      | Except.error e => Except.error e
      | Except.ok update_info =>
        match check_for_updates rest available_plugins env with
        | Except.error e => Except.error e
        | Except.ok entries =>
          if update_info.has_update then
            Except.ok ((plugin_name, mkUpdateEntry installed_info update_info) :: entries)
          else Except.ok entries

/-! ## Helper lemmas about the resolver's control flow -/

/-- The release-type result strategy 1 produces for a given release. -/
def releaseUpdateInfo (rel : Release) (url : Option String) : UpdateInfo :=
  { has_update := true
    latest_version := some rel.tag_name
    update_type := some "release"
    download_url := some url
    release_notes := some rel.body
    published_at := some rel.published_at }

/-- The commit-type result strategy 2 produces for given commits info. -/
def commitUpdateInfo (c : CommitsInfo) : UpdateInfo :=
  { has_update := true
    latest_version := some (c.latest_commit.take 8)
    update_type := some "commit"
    published_at := some c.latest_commit_date }

theorem cpu_tier1_decides (i : InstalledInfo) (a : AvailablePlugin) (e : UpdateEnv)
    (rel : Release) (hrel : e.latest_release a.owner_login a.name = some rel)
    (htag : rel.tag_name ≠ "")
    (hnew : is_newer_version (pyLstripV (i.version.getD "")) (pyLstripV rel.tag_name) = true) :
    check_plugin_update i a e =
      (get_release_download_url rel).map (releaseUpdateInfo rel) := by
  unfold check_plugin_update
  dsimp only
  rw [hrel]
  dsimp only
  rw [if_pos htag, hnew, if_pos rfl]
  cases hurl : get_release_download_url rel with
  | error err => simp [Except.map, releaseUpdateInfo]
  | ok url => simp [Except.map, releaseUpdateInfo]

theorem cpu_falls_to_strategy2 (i : InstalledInfo) (a : AvailablePlugin) (e : UpdateEnv)
    (h : ∀ rel, e.latest_release a.owner_login a.name = some rel →
      rel.tag_name ≠ "" →
      is_newer_version (pyLstripV (i.version.getD "")) (pyLstripV rel.tag_name) = false) :
    check_plugin_update i a e = Except.ok (strategy2 i a e) := by
  unfold check_plugin_update
  dsimp only
  cases hrel : e.latest_release a.owner_login a.name with
  | none => rfl
  | some rel =>
    dsimp only
    by_cases htag : rel.tag_name = ""
    · rw [if_neg (by simp [htag])]
    · rw [if_pos htag, h rel hrel htag, if_neg (by simp)]

theorem strategy2_commit_branch (i : InstalledInfo) (a : AvailablePlugin) (e : UpdateEnv)
    (t : Int) (c : CommitsInfo) (hp : i.path.getD "" ≠ "")
    (hx : e.tier2_exception = false)
    (hm : e.meta_mtime (i.path.getD "") = some t)
    (hc : e.commits a.owner_login a.name = some c) :
    strategy2 i a e =
      if c.latest_commit_date > t + 86400 then commitUpdateInfo c
      else strategy3 i a e := by
  unfold strategy2
  dsimp only
  rw [if_pos (by simp [hp, hx])]
  rw [hm]
  dsimp only
  rw [hc]
  dsimp only
  by_cases hd : c.latest_commit_date > t + 86400
  · rw [if_pos hd, if_pos hd]
    rfl
  · rw [if_neg hd, if_neg hd]

theorem strategy2_skipped (i : InstalledInfo) (a : AvailablePlugin) (e : UpdateEnv)
    (h : i.path.getD "" = "" ∨ e.tier2_exception = true ∨
      e.meta_mtime (i.path.getD "") = none ∨
      e.commits a.owner_login a.name = none) :
    strategy2 i a e = strategy3 i a e := by
  unfold strategy2
  dsimp only
  rcases h with h | h | h | h
  · rw [if_neg (by simp [h])]
  · rw [if_neg (by simp [h])]
  · by_cases hp : i.path.getD "" = ""
    · rw [if_neg (by simp [hp])]
    · by_cases hx : e.tier2_exception
      · rw [if_neg (by simp [hx])]
      · rw [if_pos (by simp [hp, hx]), h]
  · by_cases hp : i.path.getD "" = ""
    · rw [if_neg (by simp [hp])]
    · by_cases hx : e.tier2_exception
      · rw [if_neg (by simp [hx])]
      · rw [if_pos (by simp [hp, hx])]
        cases hm : e.meta_mtime (i.path.getD "") with
        | none => rfl
        | some t =>
          dsimp only
          rw [h]

theorem strategy2_cases (i : InstalledInfo) (a : AvailablePlugin) (e : UpdateEnv) :
    (∃ c, strategy2 i a e = commitUpdateInfo c) ∨ strategy2 i a e = strategy3 i a e := by
  by_cases hp : i.path.getD "" = ""
  · exact Or.inr (strategy2_skipped i a e (Or.inl hp))
  · by_cases hx : e.tier2_exception
    · exact Or.inr (strategy2_skipped i a e (Or.inr (Or.inl hx)))
    · cases hm : e.meta_mtime (i.path.getD "") with
      | none => exact Or.inr (strategy2_skipped i a e (Or.inr (Or.inr (Or.inl hm))))
      | some t =>
        cases hc : e.commits a.owner_login a.name with
        | none => exact Or.inr (strategy2_skipped i a e (Or.inr (Or.inr (Or.inr hc))))
        | some c =>
          have heq := strategy2_commit_branch i a e t c hp
            (Bool.eq_false_iff.mpr hx) hm hc
          by_cases hd : c.latest_commit_date > t + 86400
          · left
            exact ⟨c, by rw [heq, if_pos hd]⟩
          · right
            rw [heq, if_neg hd]

theorem cpu_cases (i : InstalledInfo) (a : AvailablePlugin) (e : UpdateEnv)
    (u : UpdateInfo) (h : check_plugin_update i a e = Except.ok u) :
    (∃ rel url, u = releaseUpdateInfo rel url) ∨ strategy2 i a e = u := by
  by_cases h1 : ∃ rel, e.latest_release a.owner_login a.name = some rel ∧
      rel.tag_name ≠ "" ∧
      is_newer_version (pyLstripV (i.version.getD "")) (pyLstripV rel.tag_name) = true
  · obtain ⟨rel, hrel, htag, hn⟩ := h1
    rw [cpu_tier1_decides i a e rel hrel htag hn] at h
    cases hurl : get_release_download_url rel with
    | error err => rw [hurl] at h; simp [Except.map] at h
    | ok url =>
      rw [hurl] at h
      simp only [Except.map] at h
      left
      exact ⟨rel, url, ((Except.ok.injEq _ _).mp h).symm⟩
  · have h2 : ∀ rel, e.latest_release a.owner_login a.name = some rel →
        rel.tag_name ≠ "" →
        is_newer_version (pyLstripV (i.version.getD "")) (pyLstripV rel.tag_name) = false := by
      intro rel hrel htag
      cases hb : is_newer_version (pyLstripV (i.version.getD "")) (pyLstripV rel.tag_name) with
      | false => rfl
      | true => exact absurd ⟨rel, hrel, htag, hb⟩ h1
    rw [cpu_falls_to_strategy2 i a e h2] at h
    exact Or.inr ((Except.ok.injEq _ _).mp h)

theorem strategy3_repository_char (i : InstalledInfo) (a : AvailablePlugin)
    (e : UpdateEnv) (u : UpdateInfo) (h : strategy3 i a e = u)
    (hrep : u.update_type = some "repository") :
    i.version.getD "Unknown" = "Unknown" ∧ e.tier3_exception = false ∧
      ∃ t, a.updated_at = some t ∧ t > e.now - 7 * 86400 ∧
        u = { has_update := true
              latest_version := some "Recent Update"
              update_type := some "repository"
              published_at := some t } := by
  unfold strategy3 at h
  by_cases hx : e.tier3_exception
  · rw [if_pos hx] at h
    rw [← h] at hrep
    simp at hrep
  · rw [if_neg hx] at h
    cases hup : a.updated_at with
    | none =>
      rw [hup] at h
      rw [← h] at hrep
      simp at hrep
    | some t =>
      rw [hup] at h
      dsimp only at h
      by_cases hcond : i.version.getD "Unknown" = "Unknown" ∧ t > e.now - 7 * 86400
      · obtain ⟨hv, ht⟩ := hcond
        rw [if_pos (by simp [hv]; omega)] at h
        exact ⟨hv, by simpa using hx, t, rfl, ht, h.symm⟩
      · rw [if_neg (by simpa using hcond)] at h
        rw [← h] at hrep
        simp at hrep

/-! ## Concrete resolver scenarios -/

/-- A latest release tagged `v1.0.0`, equal to the installed version. -/
def relNE : Release :=
  { tag_name := "v1.0.0"
    published_at := 0
    body := ""
    html_url := "https://github.com/owner1/samplePlugin/releases/tag/v1.0.0"
    assets := [] }

/-- Commits newer than the local copy by more than one day. -/
def commitsNE : CommitsInfo :=
  { latest_commit := "0123456789abcdef", latest_commit_date := 3 * 86400 }

/-- Installed copy whose version equals the release tag. -/
def installedNE : InstalledInfo :=
  { version := some "1.0.0", path := some "/kodev/plugins/samplePlugin.koplugin" }

def availNE : AvailablePlugin :=
  { name := "samplePlugin", owner_login := "owner1", updated_at := none }

def envNE : UpdateEnv :=
  { latest_release := fun _ _ => some relNE
    meta_mtime := fun _ => some 0
    commits := fun _ _ => some commitsNE
    tier2_exception := false
    tier3_exception := false
    now := 10 * 86400 }

/-- Release with no `.zip` asset and an empty `html_url`. -/
def relBug : Release :=
  { tag_name := "v1.0.0", published_at := 0, body := "", html_url := "", assets := [] }

def installedBug : InstalledInfo := { version := some "0.9", path := none }

def availBug : AvailablePlugin :=
  { name := "somePlugin", owner_login := "owner1", updated_at := none }

def envBug : UpdateEnv :=
  { latest_release := fun _ _ => some relBug
    meta_mtime := fun _ => none
    commits := fun _ _ => none
    tier2_exception := false
    tier3_exception := false
    now := 0 }

/-- Scenario B of the spec: installed version Unknown, no releases, no
commits, repository updated 2 days ago. -/
def installedB : InstalledInfo :=
  { version := some "Unknown", path := some "/kodev/plugins/bar.koplugin" }

def availB : AvailablePlugin :=
  { name := "bar", owner_login := "owner2", updated_at := some (98 * 86400) }

def envB : UpdateEnv :=
  { latest_release := fun _ _ => none
    meta_mtime := fun _ => some 0
    commits := fun _ _ => none
    tier2_exception := false
    tier3_exception := false
    now := 100 * 86400 }

/-! ## Claims about the update resolver -/

/-- Claim C1 as stated is false on the code: with a matched candidate whose
latest release has the parsable tag `v1.0.0` (Tier 1 usable) and an equal
installed version `1.0.0` (not strictly newer), the resolver does not
return "no update": it falls through to Tier 2, whose commit signal makes
it report a commit-type update. -/
theorem tier_precedence_counterexample :
    (envNE.latest_release availNE.owner_login availNE.name = some relNE
      ∧ relNE.tag_name ≠ ""
      ∧ is_newer_version (pyLstripV (installedNE.version.getD ""))
          (pyLstripV relNE.tag_name) = false)
    ∧ check_plugin_update installedNE availNE envNE =
        Except.ok { has_update := true
                    latest_version := some "01234567"
                    update_type := some "commit"
                    published_at := some (3 * 86400) }
    ∧ check_plugin_update installedNE availNE envNE ≠
        Except.ok { has_update := false } := by
  refine ⟨⟨rfl, by decide, by decide⟩, by rfl, ?_⟩
  intro h
  have h1 : check_plugin_update installedNE availNE envNE =
      Except.ok { has_update := true
                  latest_version := some "01234567"
                  update_type := some "commit"
                  published_at := some (3 * 86400) } := by rfl
  have h2 := (Except.ok.injEq _ _).mp (h1.symm.trans h)
  exact absurd h2 (by decide)

/-- Claim C1 (amended): when the candidate has a latest release with a
non-empty tag, Tier 1 alone decides only in the strictly-newer case, in
which Tiers 2 and 3 are never consulted (the result depends only on the
release); when the release tag is not strictly newer than the installed
version, the resolver does not return "no update" but falls through to
Tier 2 (and from there possibly Tier 3). -/
theorem tier_precedence_amended :
    ∀ (i : InstalledInfo) (a : AvailablePlugin) (e : UpdateEnv) (rel : Release),
      e.latest_release a.owner_login a.name = some rel →
      rel.tag_name ≠ "" →
      ((is_newer_version (pyLstripV (i.version.getD "")) (pyLstripV rel.tag_name) = true →
          check_plugin_update i a e =
            (get_release_download_url rel).map (releaseUpdateInfo rel))
        ∧ (is_newer_version (pyLstripV (i.version.getD "")) (pyLstripV rel.tag_name) = false →
          check_plugin_update i a e = Except.ok (strategy2 i a e))) := by
  intro i a e rel hrel htag
  constructor
  · intro hn
    exact cpu_tier1_decides i a e rel hrel htag hn
  · intro hn
    apply cpu_falls_to_strategy2
    intro rel2 hrel2 htag2
    rw [hrel] at hrel2
    injection hrel2 with hh
    subst hh
    exact hn

/-- Closed witness for the amended claim C1, at a strictly-newer release
and at an equal release. -/
theorem tier_precedence_amended_witness :
    (check_plugin_update installedBug availBug envBug =
        (get_release_download_url relBug).map (releaseUpdateInfo relBug))
    ∧ check_plugin_update installedNE availNE envNE =
        Except.ok (strategy2 installedNE availNE envNE) :=
  ⟨(tier_precedence_amended installedBug availBug envBug relBug rfl (by decide)).1 (by decide),
   (tier_precedence_amended installedNE availNE envNE relNE rfl (by decide)).2 (by decide)⟩

/-- Claim C2: when Tier 1 yields no decision the result is exactly the
Tier 2 block; Tier 2, given a readable metadata timestamp and fetched
commits, declares an update iff the newest commit timestamp is strictly
later than the local time plus one day, with type `commit` and the first
8 characters of the commit hash as displayed version; an exception inside
the block, a missing metadata file, or unfetchable commits all fall
through to Tier 3. -/
theorem tier2_commit_heuristic :
    ∀ (i : InstalledInfo) (a : AvailablePlugin) (e : UpdateEnv),
      ((∀ rel, e.latest_release a.owner_login a.name = some rel →
          rel.tag_name ≠ "" →
          is_newer_version (pyLstripV (i.version.getD "")) (pyLstripV rel.tag_name) = false) →
        check_plugin_update i a e = Except.ok (strategy2 i a e))
      ∧ (∀ t c, i.path.getD "" ≠ "" → e.tier2_exception = false →
          e.meta_mtime (i.path.getD "") = some t →
          e.commits a.owner_login a.name = some c →
          strategy2 i a e =
            if c.latest_commit_date > t + 86400 then
              { has_update := true
                latest_version := some (c.latest_commit.take 8)
                update_type := some "commit"
                published_at := some c.latest_commit_date }
            else strategy3 i a e)
      ∧ (e.tier2_exception = true → strategy2 i a e = strategy3 i a e)
      ∧ (e.meta_mtime (i.path.getD "") = none → strategy2 i a e = strategy3 i a e)
      ∧ (e.commits a.owner_login a.name = none → strategy2 i a e = strategy3 i a e) := by
  intro i a e
  refine ⟨cpu_falls_to_strategy2 i a e, ?_, ?_, ?_, ?_⟩
  · intro t c hp hx hm hc
    rw [strategy2_commit_branch i a e t c hp hx hm hc]
    rfl
  · intro hx
    exact strategy2_skipped i a e (Or.inr (Or.inl hx))
  · intro hm
    exact strategy2_skipped i a e (Or.inr (Or.inr (Or.inl hm)))
  · intro hc
    exact strategy2_skipped i a e (Or.inr (Or.inr (Or.inr hc)))

/-- Closed witness for claim C2, at the concrete commit-newer scenario. -/
theorem tier2_commit_heuristic_witness :
    installedNE.path.getD "" ≠ ""
    ∧ strategy2 installedNE availNE envNE =
        (if commitsNE.latest_commit_date > 0 + 86400 then
          { has_update := true
            latest_version := some (commitsNE.latest_commit.take 8)
            update_type := some "commit"
            published_at := some commitsNE.latest_commit_date }
        else strategy3 installedNE availNE envNE) :=
  ⟨by decide,
   (tier2_commit_heuristic installedNE availNE envNE).2.1 0 commitsNE (by decide) rfl rfl rfl⟩

/-- Claim C3 states a propagation policy the code violates: on an
installed version `0.9` matched to a candidate whose latest release is
tagged `v1.0.0` but has no `.zip` asset and an empty `html_url`, the
source evaluates `release["html_url"].split("/")[-2]` on a one-element
list, and the resulting IndexError escapes the public
`check_for_updates` instead of a structured result. -/
theorem check_for_updates_index_error :
    check_for_updates [("somePlugin", installedBug)] [availBug] envBug =
      Except.error "IndexError: list index out of range"
    ∧ get_release_download_url relBug =
        Except.error "IndexError: list index out of range" :=
  ⟨by rfl, by rfl⟩

/-- Claim C8: a repository-type synthetic update is produced only when the
installed version is literally Unknown and the candidate's own
last-updated instant lies within the last 7 days, and it carries the
fixed label Recent Update; concretely, scenario B (version Unknown, no
releases, no commits, repository updated 2 days ago) yields exactly that
update. -/
theorem tier3_repository_recency :
    (∀ i a e u, check_plugin_update i a e = Except.ok u →
        u.update_type = some "repository" →
        i.version.getD "Unknown" = "Unknown" ∧ e.tier3_exception = false ∧
        ∃ t, a.updated_at = some t ∧ t > e.now - 7 * 86400 ∧
          u = { has_update := true
                latest_version := some "Recent Update"
                update_type := some "repository"
                published_at := some t })
    ∧ check_plugin_update installedB availB envB =
        Except.ok { has_update := true
                    latest_version := some "Recent Update"
                    update_type := some "repository"
                    published_at := some (98 * 86400) } := by
  constructor
  · intro i a e u h hrep
    rcases cpu_cases i a e u h with ⟨rel, url, hu⟩ | h2
    · rw [hu] at hrep
      simp [releaseUpdateInfo] at hrep
    · rcases strategy2_cases i a e with ⟨c, hc⟩ | h3
      · rw [h2] at hc
        rw [hc] at hrep
        simp [commitUpdateInfo] at hrep
      · exact strategy3_repository_char i a e u (h3.symm.trans h2) hrep
  · rfl

/-- Closed witness for claim C8, instantiating its universal part at
scenario B. -/
theorem tier3_repository_recency_witness :
    installedB.version.getD "Unknown" = "Unknown" ∧ envB.tier3_exception = false ∧
      ∃ t, availB.updated_at = some t ∧ t > envB.now - 7 * 86400 ∧
        ({ has_update := true
           latest_version := some "Recent Update"
           update_type := some "repository"
           published_at := some (98 * 86400) } : UpdateInfo) =
          { has_update := true
            latest_version := some "Recent Update"
            update_type := some "repository"
            published_at := some t } :=
  tier3_repository_recency.1 installedB availB envB
    { has_update := true
      latest_version := some "Recent Update"
      update_type := some "repository"
      published_at := some (98 * 86400) }
    (by rfl) rfl

/-! ## api/github.py — search, classification, fast-path filter -/

/-- One repository dictionary of a search result, restricted to the
consumed fields; `description` may be `None`. -/
structure RepoData where
  id : Nat
  name : String
  owner_login : String
  description : Option String
  topics : List String
deriving DecidableEq

/-- Embedding of `GitHubAPI.is_fast_path_valid_plugin`: name patterns,
then the topic allow-set, then the description text. -/
def is_fast_path_valid_plugin (repo_data : RepoData) : Bool :=
  let name := pyLower repo_data.name
  let description := pyLower (repo_data.description.getD "")
  let topics := repo_data.topics
  if pyEndsWith name ".koplugin" || containsSub name "koplugin" ||
      pyEndsWith name ".patch" ||
      containsSub (pyLower name) "koreader.patches" ||
      containsSub name "koreader" then true
  else if ["koreader-plugin", "koreader-user-patch", "koreader"].any
      (fun topic => topics.contains topic) then true
  else if containsSub description "koreader" then true
  else false

/-- The name-based classification in `search_repositories` (the
`repo_type` assignment); `none` is the discarded branch. -/
def classifyOne (repo : RepoData) : Option String :=
  let name := pyLower repo.name
  if containsSub name "koplugin" || pyEndsWith name "plugin" ||
      pyEndsWith name "plugins" then some "plugin"
  else if containsSub name "patch" || containsSub name "patches" then some "patch"
  else none

/-- A catalog entry: the repository dictionary extended with the assigned
`repo_type` key. -/
structure CatalogEntry where
  repo : RepoData
  repo_type : String
deriving DecidableEq

/-- The item loop of `search_repositories` over the concatenation of all
query results, threading the `seen` id set: skip already-seen ids, record
the id, classify, apply the fast-path filter to plugin-typed entries,
append survivors. -/
def processItems : List RepoData → List Nat → List CatalogEntry
  | [], _ => []
  | r :: rs, seen =>
    if seen.contains r.id then processItems rs seen
    else
      match classifyOne r with
      | none => processItems rs (r.id :: seen)
      | some ty =>
        if ty = "plugin" && !is_fast_path_valid_plugin r then
          processItems rs (r.id :: seen)
        else { repo := r, repo_type := ty } :: processItems rs (r.id :: seen)

/-- Embedding of `GitHubAPI.search_repositories`: each query either fails
(`none` — caught, logged, the loop continues) or contributes its item
list; `seen` and the accumulated results persist across queries, so the
nested query/item loops equal one pass over the concatenation. -/
def search_repositories (query_results : List (Option (List RepoData))) :
    List CatalogEntry :=
  processItems (query_results.filterMap (fun q => q)).flatten []

/-! ### Facts about the fast-path filter -/

theorem startsWithCL_nil_needle (hay : List Char) : startsWithCL hay [] = true := by
  cases hay <;> rfl

theorem startsWithCL_append_needle (n1 : List Char) :
    ∀ (hay n2 : List Char), startsWithCL hay (n1 ++ n2) = true →
      startsWithCL hay n1 = true := by
  induction n1 with
  | nil => intro hay n2 h; exact startsWithCL_nil_needle hay
  | cons a as ih =>
    intro hay n2 h
    cases hay with
    | nil => simp [startsWithCL] at h
    | cons b bs =>
      simp only [List.cons_append, startsWithCL, Bool.and_eq_true] at h ⊢
      exact ⟨h.1, ih bs n2 h.2⟩

theorem containsSeg_append_needle (n1 n2 : List Char) :
    ∀ hay : List Char, containsSeg hay (n1 ++ n2) = true →
      containsSeg hay n1 = true := by
  intro hay
  induction hay with
  | nil =>
    intro h
    simp only [containsSeg] at h ⊢
    exact startsWithCL_append_needle n1 [] n2 h
  | cons c t ih =>
    intro h
    simp only [containsSeg, Bool.or_eq_true] at h ⊢
    rcases h with h | h
    · exact Or.inl (startsWithCL_append_needle n1 _ n2 h)
    · exact Or.inr (ih h)

theorem char_toLower_idem (c : Char) :
    Char.toLower (Char.toLower c) = Char.toLower c := by
  unfold Char.toLower
  dsimp only
  by_cases h : c.toNat ≥ 65 ∧ c.toNat ≤ 90
  · rw [if_pos h]
    have hvalid : Char.isValidCharNat (c.toNat + 32) := Or.inl (by omega)
    have hv : (Char.ofNat (c.toNat + 32)).toNat = c.toNat + 32 := by
      rw [Char.ofNat, dif_pos hvalid]
      rfl
    rw [if_neg (by rw [hv]; omega)]
  · rw [if_neg h, if_neg h]

theorem pyLower_idem (s : String) : pyLower (pyLower s) = pyLower s := by
  unfold pyLower
  have h1 : (String.mk (s.toList.map Char.toLower)).toList =
      s.toList.map Char.toLower := rfl
  rw [h1, List.map_map]
  congr 1
  exact List.map_congr_left (fun a _ => char_toLower_idem a)

theorem containsSub_koreader_of_patches (hay : String)
    (h : containsSub hay "koreader.patches" = true) :
    containsSub hay "koreader" = true := by
  unfold containsSub at h ⊢
  have hsplit : ("koreader.patches").toList =
      ("koreader").toList ++ (".patches").toList := by decide
  rw [hsplit] at h
  exact containsSeg_append_needle _ _ hay.toList h

/-- Condition (1) of claim C6, as the claim words it: the lower-cased name
ends with `.koplugin`, contains `koplugin`, ends with `.patch`, or
contains `koreader`. -/
def fastPathNameCond (r : RepoData) : Bool :=
  pyEndsWith (pyLower r.name) ".koplugin" ||
    containsSub (pyLower r.name) "koplugin" ||
    pyEndsWith (pyLower r.name) ".patch" ||
    containsSub (pyLower r.name) "koreader"

/-- Condition (2) of claim C6: the topics intersect the fixed allow-set. -/
def fastPathTopicCond (r : RepoData) : Bool :=
  ["koreader-plugin", "koreader-user-patch", "koreader"].any
    (fun topic => r.topics.contains topic)

/-- Condition (3) of claim C6: the description contains `koreader`
case-insensitively. -/
def fastPathDescCond (r : RepoData) : Bool :=
  containsSub (pyLower (r.description.getD "")) "koreader"

theorem fast_path_eq_conds (r : RepoData) :
    is_fast_path_valid_plugin r =
      (fastPathNameCond r || fastPathTopicCond r || fastPathDescCond r) := by
  unfold is_fast_path_valid_plugin fastPathNameCond fastPathTopicCond fastPathDescCond
  dsimp only
  by_cases h4 : containsSub (pyLower (pyLower r.name)) "koreader.patches" = true
  · have h5 : containsSub (pyLower r.name) "koreader" = true := by
      rw [pyLower_idem] at h4
      exact containsSub_koreader_of_patches _ h4
    simp [h4, h5]
  · have h4f : containsSub (pyLower (pyLower r.name)) "koreader.patches" = false := by
      cases hb : containsSub (pyLower (pyLower r.name)) "koreader.patches"
      · rfl
      · exact absurd hb h4
    rw [h4f]
    cases h1 : pyEndsWith (pyLower r.name) ".koplugin" <;>
      cases h2 : containsSub (pyLower r.name) "koplugin" <;>
      cases h3 : pyEndsWith (pyLower r.name) ".patch" <;>
      cases h5 : containsSub (pyLower r.name) "koreader" <;>
      cases ht : ["koreader-plugin", "koreader-user-patch", "koreader"].any
        (fun topic => r.topics.contains topic) <;>
      cases hd : containsSub (pyLower (r.description.getD "")) "koreader" <;>
      simp

/-! ### Facts about the item loop -/

theorem processItems_cons (r : RepoData) (rs : List RepoData) (seen : List Nat) :
    processItems (r :: rs) seen =
      if seen.contains r.id then processItems rs seen
      else
        match classifyOne r with
        | none => processItems rs (r.id :: seen)
        | some ty =>
          if ty = "plugin" && !is_fast_path_valid_plugin r then
            processItems rs (r.id :: seen)
          else { repo := r, repo_type := ty } :: processItems rs (r.id :: seen) :=
  rfl

theorem mem_processItems_not_seen :
    ∀ (rs : List RepoData) (seen : List Nat) (e : CatalogEntry),
      e ∈ processItems rs seen → seen.contains e.repo.id = false := by
  intro rs
  induction rs with
  | nil => intro seen e h; simp [processItems] at h
  | cons r rest ih =>
    intro seen e h
    rw [processItems_cons] at h
    by_cases hs : seen.contains r.id
    · rw [if_pos hs] at h
      exact ih seen e h
    · rw [if_neg hs] at h
      have step : ∀ h2 : e ∈ processItems rest (r.id :: seen),
          seen.contains e.repo.id = false := by
        intro h2
        have := ih (r.id :: seen) e h2
        simp only [List.contains_cons, Bool.or_eq_false_iff] at this
        exact this.2
      cases hc : classifyOne r with
      | none =>
        rw [hc] at h
        exact step h
      | some ty =>
        rw [hc] at h
        dsimp only at h
        by_cases hf : ty = "plugin" && !is_fast_path_valid_plugin r
        · rw [if_pos hf] at h
          exact step h
        · rw [if_neg hf] at h
          rcases List.mem_cons.mp h with h1 | h1
          · rw [h1]
            exact Bool.eq_false_iff.mpr hs
          · exact step h1

theorem mem_processItems_first :
    ∀ (rs : List RepoData) (seen : List Nat) (e : CatalogEntry),
      e ∈ processItems rs seen →
      rs.find? (fun x => x.id == e.repo.id) = some e.repo := by
  intro rs
  induction rs with
  | nil => intro seen e h; simp [processItems] at h
  | cons r rest ih =>
    intro seen e h
    rw [processItems_cons] at h
    by_cases hs : seen.contains r.id
    · rw [if_pos hs] at h
      have hnot := mem_processItems_not_seen rest seen e h
      have hne : (r.id == e.repo.id) = false := by
        cases hb : r.id == e.repo.id
        · rfl
        · rw [Nat.beq_eq_true_eq] at hb
          rw [hb] at hs
          rw [hs] at hnot
          cases hnot
      rw [List.find?_cons_of_neg _ (by simp [hne])]
      exact ih seen e h
    · rw [if_neg hs] at h
      have step : ∀ h2 : e ∈ processItems rest (r.id :: seen),
          (r :: rest).find? (fun x => x.id == e.repo.id) = some e.repo := by
        intro h2
        have hnot := mem_processItems_not_seen rest (r.id :: seen) e h2
        simp only [List.contains_cons, Bool.or_eq_false_iff] at hnot
        have hne : (r.id == e.repo.id) = false := by
          cases hb : r.id == e.repo.id
          · rfl
          · rw [Nat.beq_eq_true_eq] at hb
            have : (e.repo.id == r.id) = true := by simp [hb]
            rw [this] at hnot
            rcases hnot with ⟨h1, _⟩
            cases h1
        rw [List.find?_cons_of_neg _ (by simp [hne])]
        exact ih (r.id :: seen) e h2
      cases hc : classifyOne r with
      | none =>
        rw [hc] at h
        exact step h
      | some ty =>
        rw [hc] at h
        dsimp only at h
        by_cases hf : ty = "plugin" && !is_fast_path_valid_plugin r
        · rw [if_pos hf] at h
          exact step h
        · rw [if_neg hf] at h
          rcases List.mem_cons.mp h with h1 | h1
          · rw [h1]
            simp
          · exact step h1

theorem processItems_ids_nodup :
    ∀ (rs : List RepoData) (seen : List Nat),
      ((processItems rs seen).map (fun e => e.repo.id)).Nodup := by
  intro rs
  induction rs with
  | nil => intro seen; simp [processItems]
  | cons r rest ih =>
    intro seen
    rw [processItems_cons]
    by_cases hs : seen.contains r.id
    · rw [if_pos hs]
      exact ih seen
    · rw [if_neg hs]
      cases hc : classifyOne r with
      | none => exact ih (r.id :: seen)
      | some ty =>
        dsimp only
        by_cases hf : ty = "plugin" && !is_fast_path_valid_plugin r
        · rw [if_pos hf]
          exact ih (r.id :: seen)
        · rw [if_neg hf]
          simp only [List.map_cons, List.nodup_cons]
          constructor
          · intro hmem
            rcases List.mem_map.mp hmem with ⟨e, he, hid⟩
            have hnot := mem_processItems_not_seen rest (r.id :: seen) e he
            simp only [List.contains_cons, Bool.or_eq_false_iff] at hnot
            rcases hnot with ⟨h1, _⟩
            rw [hid] at h1
            simp at h1
          · exact ih (r.id :: seen)

/-! ## Claims about search and classification -/

/-- A plugin-typed candidate that passes the fast path by its name. -/
def repoPlug : RepoData :=
  { id := 7, name := "sample.koplugin", owner_login := "u", description := none,
    topics := [] }

/-- Two occurrences of the same repository id in different query results,
distinguished by their description. -/
def repoP1 : RepoData :=
  { id := 1, name := "foo-patches", owner_login := "u1",
    description := some "first", topics := [] }

def repoP2 : RepoData :=
  { id := 1, name := "foo-patches", owner_login := "u1",
    description := some "second", topics := [] }

/-- Claim C6: a search result whose name classified it as a plugin is
admitted to the catalog iff one of the three fast-path conditions holds
(name patterns; topic allow-set; description mentions the firmware), and
a plugin-classified candidate matching none of them is skipped. -/
theorem fast_path_filter_spec :
    (∀ r : RepoData, is_fast_path_valid_plugin r =
        (fastPathNameCond r || fastPathTopicCond r || fastPathDescCond r))
    ∧ (∀ (r : RepoData) (rs : List RepoData) (seen : List Nat),
        seen.contains r.id = false → classifyOne r = some "plugin" →
        processItems (r :: rs) seen =
          (if is_fast_path_valid_plugin r then
            { repo := r, repo_type := "plugin" } :: processItems rs (r.id :: seen)
          else processItems rs (r.id :: seen))) := by
  constructor
  · exact fast_path_eq_conds
  · intro r rs seen hseen hplug
    rw [processItems_cons, if_neg (by intro hb; rw [hseen] at hb; cases hb), hplug]
    dsimp only
    by_cases hv : is_fast_path_valid_plugin r
    · rw [if_neg (by simp [hv]), if_pos hv]
    · have hvf : is_fast_path_valid_plugin r = false := Bool.eq_false_iff.mpr hv
      rw [if_pos (by simp [hvf]), if_neg (by simp [hvf])]

/-- Closed witness for claim C6: a candidate named `sample.koplugin` is
classified as a plugin and admitted through the fast path. -/
theorem fast_path_filter_spec_witness :
    processItems [repoPlug] [] =
      (if is_fast_path_valid_plugin repoPlug then
        { repo := repoPlug, repo_type := "plugin" } :: processItems [] [repoPlug.id]
      else processItems [] [repoPlug.id]) :=
  fast_path_filter_spec.2 repoPlug [] [] (by decide) (by decide)

/-- Claim C7: across any sequence of (possibly failing) search queries,
the final catalog contains each repository id at most once, and the
entry kept for an id is built from the first occurrence of that id in
the concatenated query results (first-seen wins). -/
theorem catalog_dedup_first_seen :
    ∀ query_results : List (Option (List RepoData)),
      ((search_repositories query_results).map (fun e => e.repo.id)).Nodup
      ∧ ∀ e, e ∈ search_repositories query_results →
          ((query_results.filterMap (fun q => q)).flatten).find?
            (fun x => x.id == e.repo.id) = some e.repo := by
  intro qs
  exact ⟨processItems_ids_nodup _ [], fun e he => mem_processItems_first _ [] e he⟩

/-- Closed witness for claim C7: with the same id returned by two queries,
the catalog keeps the first occurrence. -/
theorem catalog_dedup_first_seen_witness :
    ((search_repositories [some [repoP1], some [repoP2]]).map
        (fun e => e.repo.id)).Nodup
    ∧ (([some [repoP1], some [repoP2]].filterMap
          (fun q => q)).flatten).find?
        (fun x => x.id ==
          ({ repo := repoP1, repo_type := "patch" } : CatalogEntry).repo.id) =
        some ({ repo := repoP1, repo_type := "patch" } : CatalogEntry).repo :=
  ⟨(catalog_dedup_first_seen [some [repoP1], some [repoP2]]).1,
   (catalog_dedup_first_seen [some [repoP1], some [repoP2]]).2
     { repo := repoP1, repo_type := "patch" } (by decide)⟩

/-! ## api/github.py `download_repository_zip` and workers/download_worker.py -/

/-- One element of the releases-list response; only `assets` is consumed. -/
structure DlRelease where
  assets : List ReleaseAsset
deriving DecidableEq

/-- The remote world of `download_repository_zip`: the releases-list call
(`none` models its `try` failing) and plain downloads by URL (`none`
models a failed request; archive bytes are opaque strings). -/
structure DownloadEnv where
  releases : Option (List DlRelease)
  http : String → Option String

/-- The first try-block of `download_repository_zip`: latest release
(head of the list), first `.zip`-suffixed asset, downloaded; any failure
inside yields nothing. -/
def releaseZipAttempt (env : DownloadEnv) : Option String :=
  match env.releases with
  | none => none
  | some [] => none
  | some (latest :: _) =>
    match findZipAsset latest.assets with
    | none => none
    | some zip_url => env.http zip_url

/-- The source-archive URL `.../archive/refs/heads/<branch>.zip`. -/
def sourceArchiveUrl (owner repo branch : String) : String :=
  "https://github.com/" ++ owner ++ "/" ++ repo ++ "/archive/refs/heads/" ++
    branch ++ ".zip"

/-- Embedding of `GitHubAPI.download_repository_zip`: release asset, then
the named branch's source archive, then the `master` source archive. -/
def download_repository_zip (env : DownloadEnv) (owner repo branch : String) :
    Option String :=
  match releaseZipAttempt env with
  | some content => some content
  | none =>
    match env.http (sourceArchiveUrl owner repo branch) with
    | some content => some content
    | none => env.http (sourceArchiveUrl owner repo "master")

/-- An observed directory matched by `rglob("*.koplugin")`. -/
structure KDir where
  name : String
  hasMainLua : Bool
  hasMetaLua : Bool
deriving DecidableEq

/-- An observed first-level directory of the extraction root, with the
file checks the worker performs on it. -/
structure TopDir where
  name : String
  hasMainLua : Bool
  hasMetaLua : Bool
  kopluginMatches : List KDir
deriving DecidableEq

/-- One element of `get_patch_files`'s listing. -/
structure PatchFileInfo where
  name : String
  download_url : String
  sha : String
deriving DecidableEq

/-- Filesystem effects the worker can perform, in order. -/
inductive FsAction where
  | mkdirTemp : FsAction
  | writeZip : String → FsAction
  | extractAll : FsAction
  | removeTree : String → FsAction
  | copyTree : String → String → FsAction
  | mkdirPatches : FsAction
  | writePatch : String → FsAction
deriving DecidableEq

/-- The world of `DownloadWorker.run`: the download environment, the
observations of the extracted tree, target-path existence, raw text
fetches (`Except.error` models a raised request exception), and the
patch listing. -/
structure WorkerEnv where
  dl : DownloadEnv
  extracted_dirs : List TopDir
  target_exists : String → Bool
  fetch_text : String → Except String String
  patch_listing : Option (List PatchFileInfo)

/-- First search pass of the worker: a first-level directory with both
`main.lua` and `_meta.lua`, else the first valid `*.koplugin` directory
beneath it. -/
def findPluginPass1 : List TopDir → Option String
  | [] => none
  | d :: ds =>
    if d.hasMainLua && d.hasMetaLua then some d.name
    else
      match d.kopluginMatches.find? (fun k => k.hasMainLua && k.hasMetaLua) with
      | some k => some k.name
      | none => findPluginPass1 ds

/-- Second search pass: any first-level directory containing `main.lua`. -/
def findPluginPass2 (dirs : List TopDir) : Option String :=
  (dirs.find? (fun d => d.hasMainLua)).map (fun d => d.name)

/-- Embedding of the plugin branch of `DownloadWorker.run` as a terminal
signal plus the ordered filesystem effects; the early return on a falsy
`zip_content` (`None` or empty bytes) performs no filesystem action. -/
def runPluginBranch (env : WorkerEnv) (owner repo install_path : String)
    (is_update : Bool) : (Bool × String) × List FsAction :=
  match download_repository_zip env.dl owner repo "main" with
  | none => ((false, "Failed to download repository"), [])
  | some content =>
    if content = "" then ((false, "Failed to download repository"), [])
    else
      let pre := [FsAction.mkdirTemp, FsAction.writeZip repo, FsAction.extractAll]
      let found :=
        match findPluginPass1 env.extracted_dirs with
        | some n => some n
        | none => findPluginPass2 env.extracted_dirs
      match found with
      | none =>
        ((false, "No valid plugin structure found (missing main.lua and _meta.lua)"),
          pre)
      | some raw_name =>
        let plugin_name :=
          if pyEndsWith raw_name ".koplugin" then raw_name
          else raw_name ++ ".koplugin"
        let target := install_path ++ "/plugins/" ++ plugin_name
        ((true, repo ++
            (if is_update then " updated successfully!" else " installed successfully!")),
          pre ++
            (if env.target_exists target then [FsAction.removeTree target] else []) ++
            [FsAction.copyTree raw_name target, FsAction.removeTree "temp_download"])

/-- Python `name[0].isdigit()`; the empty case is unreachable behind the
`.lua` suffix check (in Python it would raise into the bare `except`). -/
def pyFirstIsDigit (s : String) : Bool :=
  match s.toList with
  | [] => false
  | c :: _ => c.isDigit

/-- The selection loop of `GitHubAPI.get_patch_files`. -/
def patchLoop : List PatchFileInfo → List PatchFileInfo
  | [] => []
  | f :: fs =>
    if pyEndsWith f.name ".lua" && pyFirstIsDigit f.name then f :: patchLoop fs
    else patchLoop fs

/-- Embedding of `GitHubAPI.get_patch_files`: a failed listing request
yields the empty list (bare `except`). -/
def get_patch_files (listing : Option (List PatchFileInfo)) : List PatchFileInfo :=
  match listing with
  | none => []
  | some files => patchLoop files

/-- The per-patch fetch-and-write loop; a raised fetch aborts the batch,
keeping the writes already performed. -/
def writePatchesLoop (env : WorkerEnv) :
    List PatchFileInfo → List FsAction × Option String
  | [] => ([], none)
  | p :: ps =>
    match env.fetch_text p.download_url with
    | Except.error e => ([], some e)
    | Except.ok _ =>
      let rest := writePatchesLoop env ps
      (FsAction.writePatch p.name :: rest.1, rest.2)

/-- Embedding of the patch branch of `DownloadWorker.run`. -/
def runPatchBranch (env : WorkerEnv) (_owner _repo _install_path : String) :
    (Bool × String) × List FsAction :=
  match get_patch_files env.patch_listing with
  | [] => ((false, "No patches found"), [])
  | p :: ps =>
    let wr := writePatchesLoop env (p :: ps)
    match wr.2 with
    | some e => ((false, "Error: " ++ e), FsAction.mkdirPatches :: wr.1)
    | none =>
      ((true, toString (p :: ps).length ++ " patch(es) installed!"),
        FsAction.mkdirPatches :: wr.1)

/-! ## Claims about archive acquisition and patch selection -/

/-- A worker environment in which every remote interaction fails. -/
def envAllFail : WorkerEnv :=
  { dl := { releases := some [], http := fun _ => none }
    extracted_dirs := []
    target_exists := fun _ => false
    fetch_text := fun _ => Except.error "timeout"
    patch_listing := none }

/-- A patch repository whose root holds only `.lua` files that do not
start with a decimal digit. -/
def envNoDigitPatches : WorkerEnv :=
  { dl := { releases := some [], http := fun _ => none }
    extracted_dirs := []
    target_exists := fun _ => false
    fetch_text := fun _ => Except.error "timeout"
    patch_listing := some
      [ { name := "mypatch.lua", download_url := "u1", sha := "s1" },
        { name := "fixes.lua", download_url := "u2", sha := "s2" } ] }

/-- Claim C9: the archive is acquired by trying, in order and each only
after the previous produced nothing, the latest release's first
`.zip`-suffixed asset, the named branch's source archive, and the
`master` source archive; when the whole chain produces nothing the
worker terminates with the failure message and performs no filesystem
action. -/
theorem archive_acquisition_order :
    (∀ (env : DownloadEnv) (owner repo branch : String),
      download_repository_zip env owner repo branch =
        match releaseZipAttempt env with
        | some content => some content
        | none =>
          match env.http (sourceArchiveUrl owner repo branch) with
          | some content => some content
          | none => env.http (sourceArchiveUrl owner repo "master"))
    ∧ (∀ (env : DownloadEnv) (latest : DlRelease) (rest : List DlRelease),
        env.releases = some (latest :: rest) →
        releaseZipAttempt env =
          match findZipAsset latest.assets with
          | none => none
          | some zip_url => env.http zip_url)
    ∧ (∀ (env : WorkerEnv) (owner repo install_path : String) (is_update : Bool),
        download_repository_zip env.dl owner repo "main" = none →
        runPluginBranch env owner repo install_path is_update =
          ((false, "Failed to download repository"), [])) := by
  refine ⟨fun env owner repo branch => rfl, ?_, ?_⟩
  · intro env latest rest hrel
    unfold releaseZipAttempt
    rw [hrel]
  · intro env owner repo install_path is_update hdl
    unfold runPluginBranch
    rw [hdl]

/-- A latest release carrying one `.zip` asset. -/
def dlRelFirst : DlRelease :=
  { assets := [ { name := "plugin.zip",
                  browser_download_url := "https://dl/plugin.zip" } ] }

/-- A download environment whose releases call returns one release. -/
def dlRelEnv : DownloadEnv :=
  { releases := some [dlRelFirst], http := fun _ => none }

/-- Closed witness for claim C9: the release attempt reduces to the first
`.zip` asset's download, and with every download failing the worker
reports the failure and touches nothing. -/
theorem archive_acquisition_order_witness :
    releaseZipAttempt dlRelEnv =
      (match findZipAsset dlRelFirst.assets with
       | none => none
       | some zip_url => dlRelEnv.http zip_url)
    ∧ runPluginBranch envAllFail "owner1" "repo1" "/kodev" false =
        ((false, "Failed to download repository"), []) :=
  ⟨archive_acquisition_order.2.1 dlRelEnv dlRelFirst [] rfl,
   archive_acquisition_order.2.2 envAllFail "owner1" "repo1" "/kodev" false rfl⟩

/-- Claim C10: the patch list keeps exactly the root files whose name ends
in `.lua` and whose first character is a decimal digit; with none
matching the list is empty and the patch install terminates with "No
patches found" and performs no filesystem action; concretely, a
repository holding only `mypatch.lua` and `fixes.lua` is rejected. -/
theorem patchLoop_eq_filter :
    ∀ files : List PatchFileInfo,
      patchLoop files =
        files.filter (fun f => pyEndsWith f.name ".lua" && pyFirstIsDigit f.name) := by
  intro files
  induction files with
  | nil => rfl
  | cons f fs ih =>
    by_cases hf : (pyEndsWith f.name ".lua" && pyFirstIsDigit f.name) = true
    · simp only [patchLoop, List.filter_cons, hf, if_true]
      rw [ih]
    · have hff := Bool.eq_false_iff.mpr hf
      simp only [patchLoop, List.filter_cons, hff, Bool.false_eq_true, if_false]
      exact ih

theorem patch_selection_digit_lua :
    (∀ files : List PatchFileInfo,
      get_patch_files (some files) =
        files.filter (fun f => pyEndsWith f.name ".lua" && pyFirstIsDigit f.name))
    ∧ (∀ (env : WorkerEnv) (owner repo install_path : String),
        get_patch_files env.patch_listing = [] →
        runPatchBranch env owner repo install_path =
          ((false, "No patches found"), []))
    ∧ runPatchBranch envNoDigitPatches "owner1" "repo1" "/kodev" =
        ((false, "No patches found"), []) := by
  refine ⟨?_, ?_, ?_⟩
  · intro files
    exact patchLoop_eq_filter files
  · intro env owner repo install_path h
    unfold runPatchBranch
    rw [h]
  · rfl

/-- Closed witness for claim C10, at the digit-free listing and a mixed
listing where only the digit-prefixed `.lua` file survives. -/
theorem patch_selection_digit_lua_witness :
    get_patch_files (some
        [ { name := "01-fix.lua", download_url := "u1", sha := "s1" },
          { name := "readme.md", download_url := "u2", sha := "s2" },
          { name := "patch.lua", download_url := "u3", sha := "s3" } ]) =
      ([ { name := "01-fix.lua", download_url := "u1", sha := "s1" },
         { name := "readme.md", download_url := "u2", sha := "s2" },
         { name := "patch.lua", download_url := "u3", sha := "s3" } ] :
        List PatchFileInfo).filter
          (fun f => pyEndsWith f.name ".lua" && pyFirstIsDigit f.name)
    ∧ runPatchBranch envNoDigitPatches "o" "r" "/p" =
        ((false, "No patches found"), []) :=
  ⟨patch_selection_digit_lua.1 _,
   patch_selection_digit_lua.2.1 envNoDigitPatches "o" "r" "/p" (by decide)⟩
